import Mathlib

/-!
Verification of the Interview-Helper-Agent question engine.

The repository ships the React frontend and the deployment packaging; the
FastAPI backend engine itself (routes, schemas, services) is not part of the
visible sources.  The frontend modules `services/errorHandler.ts` and the
QuestionSets page are embedded directly from their TypeScript source; the
backend components (SchemaValidator, GenerationOrchestrator, QuestionStore,
QuestionSetManager, RatingTracker, StatsAggregator) are modelled from the
specification, as noted on each definition.
-/

namespace InterviewHelper

/-! ## Frontend: `services/errorHandler.ts` -/

/-- Embeds the `ErrorType` enum of `src/frontend/src/services/errorHandler.ts`. -/
inductive ErrorType
  | network
  | validation
  | auth
  | notfound
  | server
  | unknown
  deriving DecidableEq, Repr

/-- Shape of the `data` payload of an axios response, restricted to the string
fields `detail` and `message` that `parseAxiosError` reads. -/
structure ResponseData where
  detail : Option String
  message : Option String
  deriving DecidableEq, Repr

/-- An axios response: an HTTP status and an optional data payload. -/
structure AxiosResponse where
  status : Nat
  data : Option ResponseData
  deriving DecidableEq, Repr

/-- Input to `parseAxiosError`: either a value for which `axios.isAxiosError`
is false, or an axios error with an optional response and an error message. -/
inductive ErrInput
  | nonAxios
  | axios (response : Option AxiosResponse) (errMessage : String)
  deriving DecidableEq, Repr

/-- Embeds the `ErrorResponse` type of `errorHandler.ts` (the `details` field,
which only echoes the input, is omitted). -/
structure ErrorResponse where
  type : ErrorType
  message : String
  statusCode : Option Nat
  deriving DecidableEq, Repr

/-- JavaScript `a || b` on an optional string: an absent or empty string is
falsy, so the fallback is used. -/
def jsStringOr (v : Option String) (fallback : String) : String :=
  match v with
  | some s => if s = "" then fallback else s
  | none => fallback

/-- Embeds `parseAxiosError` of `errorHandler.ts` lines 23-93: a non-axios
input maps to UNKNOWN; an axios error with no response maps to NETWORK; then
statuses 400 / 401 / 404 / >= 500 map to VALIDATION / AUTH / NOTFOUND /
SERVER, everything else to UNKNOWN. -/
def parseAxiosError (e : ErrInput) : ErrorResponse :=
  match e with
  | .nonAxios =>
      { type := .unknown
        message := "An unexpected error occurred. Please try again."
        statusCode := none }
  | .axios response _ =>
      match response with
      | none =>
          { type := .network
            message := "Network connection failed. Please check your internet and try again."
            statusCode := none }
      | some resp =>
          if resp.status = 400 then
            { type := .validation
              message := jsStringOr (resp.data.bind (fun d => d.detail))
                (jsStringOr (resp.data.bind (fun d => d.message))
                  "Invalid input. Please check the highlighted fields.")
              statusCode := some 400 }
          else if resp.status = 401 then
            { type := .auth
              message := "You don\x27t have permission to perform this action. Please log in again."
              statusCode := some 401 }
          else if resp.status = 404 then
            { type := .notfound
              message := "The requested resource was not found. It may have been deleted."
              statusCode := some 404 }
          else if 500 ≤ resp.status then
            { type := .server
              message := "Server error. Please try again later."
              statusCode := some resp.status }
          else
            { type := .unknown
              message := jsStringOr (resp.data.bind (fun d => d.message))
                "An error occurred. Please try again."
              statusCode := some resp.status }

/-- The status-only classification the claim describes: no response maps to
NETWORK, 400 to VALIDATION, 401 to AUTH, 404 to NOTFOUND, any status >= 500
to SERVER, anything else to UNKNOWN. -/
def statusToErrorType : Option Nat → ErrorType
  | none => .network
  | some st =>
      if st = 400 then .validation
      else if st = 401 then .auth
      else if st = 404 then .notfound
      else if 500 ≤ st then .server
      else .unknown

/-! ## Frontend: `getQuestionCount` (QuestionSets page) -/

/-- The ASCII whitespace characters relevant to the string data handled
here (the JS and JSON sources strip general whitespace; the fields involved
only ever contain these). -/
def isWsChar (c : Char) : Bool :=
  c = ' ' ∨ c = '\t' ∨ c = '\n' ∨ c = '\r'

/-- Models `String.prototype.trim` on the character list of a string. -/
def trimChars (cs : List Char) : List Char :=
  ((cs.dropWhile isWsChar).reverse.dropWhile isWsChar).reverse

/-- Models `String.prototype.trim`. -/
def trimStr (s : String) : String :=
  ⟨trimChars s.data⟩

/-- Splits a character list at commas, keeping empty segments, like
`String.prototype.split(",")`. -/
def splitCommaAux : List Char → List Char → List (List Char)
  | [], acc => [acc.reverse]
  | c :: cs, acc =>
      if c = ',' then acc.reverse :: splitCommaAux cs []
      else splitCommaAux cs (c :: acc)

/-- Models `s.split(",")`: the empty string yields one empty segment, and
empty segments between consecutive commas are kept. -/
def splitComma (s : String) : List String :=
  (splitCommaAux s.data []).map (fun cs => ⟨cs⟩)

/-- Models `s.startsWith("[")`. -/
def startsWithBracket (s : String) : Bool :=
  match s.data with
  | c :: _ => c = '['
  | [] => false

/-- Drops leading JSON whitespace characters. -/
def skipWs : List Char → List Char
  | [] => []
  | c :: cs => if isWsChar c then skipWs cs else c :: cs

/-- Consumes one or more leading decimal digits, returning their value. -/
def parseNatTok (cs : List Char) : Option (Nat × List Char) :=
  let ds := cs.takeWhile Char.isDigit
  if ds.isEmpty then none
  else some (ds.foldl (fun n c => 10 * n + (c.toNat - 48)) 0, cs.dropWhile Char.isDigit)

/-- Consumes an optionally-signed decimal integer. -/
def parseIntTok : List Char → Option (Int × List Char)
  | '-' :: cs =>
      match parseNatTok cs with
      | some (n, rest) => some (-(n : Int), rest)
      | none => none
  | cs =>
      match parseNatTok cs with
      | some (n, rest) => some ((n : Int), rest)
      | none => none

/-- Consumes a non-empty comma-separated list of integers (with JSON
whitespace); the fuel argument bounds the recursion. -/
def parseElems : Nat → List Char → Option (List Int × List Char)
  | 0, _ => none
  | fuel + 1, cs =>
      match parseIntTok (skipWs cs) with
      | none => none
      | some (n, rest) =>
          match skipWs rest with
          | ',' :: rest2 =>
              match parseElems fuel rest2 with
              | some (ns, rest3) => some (n :: ns, rest3)
              | none => none
          | rest2 => some ([n], rest2)

/-- Models `JSON.parse` on the `question_ids` field, which per the schema
holds a JSON array of question IDs: accepts an integer array with JSON
whitespace and nothing after the closing bracket, rejecting everything else
(the rejection models a thrown `SyntaxError`). -/
def parseJsonIntArray (s : String) : Option (List Int) :=
  match skipWs s.data with
  | '[' :: rest =>
      match skipWs rest with
      | ']' :: rest2 => if (skipWs rest2).isEmpty then some [] else none
      | rest2 =>
          match parseElems (rest2.length + 1) rest2 with
          | some (ns, rest3) =>
              match skipWs rest3 with
              | ']' :: rest4 => if (skipWs rest4).isEmpty then some ns else none
              | _ => none
          | none => none
  | _ => none

/-- Embeds `getQuestionCount` of the QuestionSets page: a string starting
with a bracket is parsed as a JSON array and its length returned (0 when the
parse throws); otherwise the comma-separated entries whose trimmed text is
non-empty are counted. -/
def getQuestionCount (questionIds : String) : Nat :=
  if startsWithBracket questionIds then
    match parseJsonIntArray questionIds with
    | some arr => arr.length
    | none => 0
  else
    ((splitComma questionIds).filter (fun id => decide (trimStr id ≠ ""))).length

/-! ## Backend engine, modelled from the specification

The FastAPI backend (`backend/routes`, `backend/schemas.py`,
`backend/services/gemini_service.py`, `backend/models.py`) is not among the
visible sources; only its packaging, the SQL schema and the frontend callers
are.  The definitions below therefore follow the specification text. -/

/-- Modelled from the spec: the stored `question_type` enum of the missing
backend data model (technical | behavioral; `mixed` is never stored). -/
inductive QuestionType
  | technical
  | behavioral
  deriving DecidableEq, Repr

/-- Modelled from the spec: the `question_type` of a generation request,
where `mixed` is a generation hint only. -/
inductive ReqQuestionType
  | technical
  | behavioral
  | mixed
  deriving DecidableEq, Repr

/-- Modelled from the spec: a stored Question row of the missing backend
(timestamps are omitted, no claim depends on them). -/
structure Question where
  id : Nat
  job_title : String
  question_text : String
  question_type : QuestionType
  difficulty : Nat
  is_flagged : Bool
  tags : Option String
  deriving DecidableEq, Repr

/-- Modelled from the spec: a stored QuestionSet row of the missing backend,
keeping its ordered list of referenced question identifiers. -/
structure QuestionSet where
  id : Nat
  name : String
  description : Option String
  job_title : String
  question_ids : List Nat
  deriving DecidableEq, Repr

/-- Modelled from the spec: a stored Rating row of the missing backend, with
a decimal rating value. -/
structure Rating where
  id : Nat
  question_id : Nat
  rating : ℚ
  feedback : Option String
  deriving DecidableEq, Repr

/-- Modelled from the spec: the persisted state of the missing backend, the
three logical tables plus identifier counters; `persistOk` models the health
of the storage layer (persistence fails with `PersistenceError` when it is
false). -/
structure Store where
  questions : List Question
  sets : List QuestionSet
  ratings : List Rating
  nextQuestionId : Nat
  nextSetId : Nat
  nextRatingId : Nat
  persistOk : Bool
  deriving DecidableEq, Repr

/-- Modelled from the spec: the error taxonomy of the missing backend. -/
inductive EngineError
  | validationError (field : String)
  | notFoundError
  | upstreamUnavailable
  | parseFailure
  | persistenceError
  deriving DecidableEq, Repr

/-- Modelled from the spec: the typed failures of the missing
AIQuestionProvider. -/
inductive UpstreamFailure
  | timeout
  | unreachable
  | quotaExceeded
  | malformedUpstreamResponse
  deriving DecidableEq, Repr

/-- Modelled from the spec: a generation request (`count` is an integer, so
the in-range check below is the whole `count` validation). -/
structure GenRequest where
  job_title : String
  count : Int
  question_type : ReqQuestionType
  deriving DecidableEq, Repr

/-- Modelled from the spec: the missing SchemaValidator for generation
requests — `job_title` non-blank with length in [2,100], `count` in [1,100];
the `question_type` membership check is enforced by the `ReqQuestionType`
enum.  A pure function of the request. -/
def validateGenRequest (r : GenRequest) : Except EngineError Unit :=
  if trimStr r.job_title = "" then .error (.validationError "job_title")
  else if r.job_title.length < 2 ∨ 100 < r.job_title.length then
    .error (.validationError "job_title")
  else if r.count < 1 ∨ 100 < r.count then .error (.validationError "count")
  else .ok ()

/-- Modelled from the spec: a raw question candidate extracted from upstream
AI text by the missing ResponseParser, before validation; absent fields model
missing required fields in the AI output. -/
structure RawCandidate where
  question_text : Option String
  question_type : Option String
  difficulty : Option Int
  deriving DecidableEq, Repr

/-- Modelled from the spec: a schema-valid question candidate produced by the
missing ResponseParser or FallbackGenerator. -/
structure Candidate where
  question_text : String
  question_type : QuestionType
  difficulty : Nat
  deriving DecidableEq, Repr

/-- Modelled from the spec: recognizing a stored question type name. -/
def parseTypeName : String → Option QuestionType
  | "technical" => some .technical
  | "behavioral" => some .behavioral
  | _ => none

/-- Modelled from the spec: validation of one parsed candidate by the missing
ResponseParser — a candidate missing required fields, with an invalid
`question_type`, or with `difficulty` outside [1,5] is discarded. -/
def validCandidate (rc : RawCandidate) : Option Candidate :=
  match rc.question_text, rc.question_type, rc.difficulty with
  | some text, some tname, some d =>
      if trimStr text = "" then none
      else
        match parseTypeName tname with
        | none => none
        | some qt =>
            if 1 ≤ d ∧ d ≤ 5 then
              some { question_text := text, question_type := qt, difficulty := d.toNat }
            else none
  | _, _, _ => none

/-- Modelled from the spec: the missing ResponseParser — invalid candidates
are discarded rather than failing the batch; fewer than one surviving valid
candidate signals `ParseFailure`. -/
def parseResponse (raws : List RawCandidate) : Except EngineError (List Candidate) :=
  match raws.filterMap validCandidate with
  | [] => .error .parseFailure
  | c :: cs => .ok (c :: cs)

/-- Modelled from the spec: the type assigned to the i-th fallback question —
the requested type, alternating for `mixed`. -/
def fallbackType (qt : ReqQuestionType) (i : Nat) : QuestionType :=
  match qt with
  | .technical => .technical
  | .behavioral => .behavioral
  | .mixed => if i % 2 = 0 then .technical else .behavioral

/-- Modelled from the spec: a static fallback template parameterized by job
title and type; templates repeat every five questions. -/
def fallbackText (jt : String) (qt : QuestionType) (i : Nat) : String :=
  match qt with
  | .technical =>
      "Describe a key technical concept every " ++ jt ++
        " should master (template " ++ toString (i % 5) ++ ")."
  | .behavioral =>
      "Tell me about a situation that shows a core skill of a " ++ jt ++
        " (template " ++ toString (i % 5) ++ ")."

/-- Modelled from the spec: the missing FallbackGenerator — synthesizes
exactly `count` candidates from static templates, each with mid-range
difficulty 3. -/
def fallbackGenerate (jt : String) (qt : ReqQuestionType) (count : Nat) : List Candidate :=
  (List.range count).map (fun i =>
    { question_text := fallbackText jt (fallbackType qt i) i
      question_type := fallbackType qt i
      difficulty := 3 })

/-- Modelled from the spec: batch assembly by the missing
GenerationOrchestrator — an upstream failure or a parse failure (no valid
candidate) falls back entirely, a short parsed batch is topped up with
fallback questions, and a long one is truncated to exactly `count`. -/
def assembleBatch (jt : String) (qt : ReqQuestionType) (count : Nat)
    (upstream : Except UpstreamFailure (List RawCandidate)) : List Candidate :=
  match upstream with
  | .error _ => fallbackGenerate jt qt count
  | .ok raws =>
      match parseResponse raws with
      | .error _ => fallbackGenerate jt qt count
      | .ok parsed =>
          if parsed.length < count then
            parsed ++ fallbackGenerate jt qt (count - parsed.length)
          else parsed.take count

/-- Modelled from the spec: persisting a batch of candidates as Question rows
with consecutive fresh identifiers. -/
def persistList (jt : String) (nextId : Nat) : List Candidate → List Question
  | [] => []
  | c :: cs =>
      { id := nextId
        job_title := jt
        question_text := c.question_text
        question_type := c.question_type
        difficulty := c.difficulty
        is_flagged := false
        tags := none } :: persistList jt (nextId + 1) cs

/-- Modelled from the spec: the persistence step of the missing
GenerationOrchestrator — the whole batch is written as one unit. -/
def persistBatch (s : Store) (jt : String) (cands : List Candidate) :
    List Question × Store :=
  let qs := persistList jt s.nextQuestionId cands
  (qs, { s with
          questions := s.questions ++ qs
          nextQuestionId := s.nextQuestionId + cands.length })

/-- Modelled from the spec: the missing GenerationOrchestrator — validate,
assemble the batch from the upstream result (absorbing upstream and parse
failures via fallback), then persist; a storage-layer failure surfaces as
`PersistenceError`. -/
def generate (s : Store) (r : GenRequest)
    (upstream : Except UpstreamFailure (List RawCandidate)) :
    Except EngineError (List Question × Store) :=
  match validateGenRequest r with
  | .error e => .error e
  | .ok () =>
      if s.persistOk then
        .ok (persistBatch s r.job_title
          (assembleBatch r.job_title r.question_type r.count.toNat upstream))
      else .error .persistenceError

/-- The error kinds a caller of `generate` may observe besides success,
following the spec's propagation policy. -/
def allowedGenerateError : EngineError → Bool
  | .validationError _ => true
  | .persistenceError => true
  | _ => false

/-- Modelled from the spec: `QuestionStore.get` — `NotFoundError` when the
identifier is absent. -/
def getQuestion (s : Store) (id : Nat) : Except EngineError Question :=
  match s.questions.find? (fun q => q.id == id) with
  | some q => .ok q
  | none => .error .notFoundError

/-- Modelled from the spec: `QuestionStore.delete` — removes the question and
cascades to remove every Rating row and every QuestionSet membership
referencing it; `NotFoundError` when absent. -/
def deleteQuestion (s : Store) (id : Nat) : Except EngineError Store :=
  match s.questions.find? (fun q => q.id == id) with
  | none => .error .notFoundError
  | some _ =>
      .ok { s with
              questions := s.questions.filter (fun q => ! (q.id == id))
              ratings := s.ratings.filter (fun rt => ! (rt.question_id == id))
              sets := s.sets.map (fun st =>
                { st with question_ids := st.question_ids.filter (fun qid => ! (qid == id)) }) }

/-- Modelled from the spec: whether a question identifier exists in the
store. -/
def questionExists (s : Store) (qid : Nat) : Bool :=
  s.questions.any (fun q => q.id == qid)

/-- Modelled from the spec: `QuestionSetManager.create` — duplicate
identifiers in the request are rejected as a `ValidationError`; every
referenced identifier must exist, else `NotFoundError` and nothing is
persisted (the `Except` result carries no new state on error, so failure is
all-or-nothing by construction). -/
def createSet (s : Store) (name : String) (description : Option String)
    (jt : String) (question_ids : List Nat) :
    Except EngineError (QuestionSet × Store) :=
  if question_ids.Nodup then
    if question_ids.all (fun qid => questionExists s qid) then
      let st : QuestionSet :=
        { id := s.nextSetId, name, description, job_title := jt, question_ids }
      .ok (st, { s with sets := s.sets ++ [st], nextSetId := s.nextSetId + 1 })
    else .error .notFoundError
  else .error (.validationError "question_ids")

/-- Modelled from the spec: `RatingTracker.create` — the referenced question
must exist (else `NotFoundError`) and the rating must lie in [1.0, 5.0]
(else `ValidationError`); the row is appended and no Question row is
touched. -/
def createRating (s : Store) (qid : Nat) (rating : ℚ) (feedback : Option String) :
    Except EngineError (Rating × Store) :=
  if questionExists s qid then
    if rating < 1 ∨ 5 < rating then .error (.validationError "rating")
    else
      let rt : Rating := { id := s.nextRatingId, question_id := qid, rating, feedback }
      .ok (rt, { s with ratings := s.ratings ++ [rt], nextRatingId := s.nextRatingId + 1 })
  else .error .notFoundError

/-- Modelled from the spec: a partial question update payload (difficulty,
flag, tags only). -/
structure QuestionUpdate where
  difficulty : Option Nat
  is_flagged : Option Bool
  tags : Option String
  deriving DecidableEq, Repr

/-- Modelled from the spec: `QuestionStore.update` — applies the partial
payload to the matching row, `NotFoundError` when absent. -/
def updateQuestion (s : Store) (id : Nat) (u : QuestionUpdate) :
    Except EngineError Store :=
  match s.questions.find? (fun q => q.id == id) with
  | none => .error .notFoundError
  | some _ =>
      .ok { s with
              questions := s.questions.map (fun q =>
                if q.id == id then
                  { q with
                      difficulty := u.difficulty.getD q.difficulty
                      is_flagged := u.is_flagged.getD q.is_flagged
                      tags := match u.tags with | some t => some t | none => q.tags }
                else q) }

/-- The operations that mutate the store, used to state that persisted
Rating rows are never modified afterwards. -/
inductive Op
  | gen (r : GenRequest) (upstream : Except UpstreamFailure (List RawCandidate))
  | del (id : Nat)
  | updateQ (id : Nat) (u : QuestionUpdate)
  | mkSet (name : String) (description : Option String) (jt : String) (qids : List Nat)
  | rate (qid : Nat) (rating : ℚ) (feedback : Option String)

/-- The store an operation leaves behind (unchanged when the operation
fails). -/
def applyOp (s : Store) : Op → Store
  | .gen r up =>
      match generate s r up with
      | .ok p => p.2
      | .error _ => s
  | .del id =>
      match deleteQuestion s id with
      | .ok s' => s'
      | .error _ => s
  | .updateQ id u =>
      match updateQuestion s id u with
      | .ok s' => s'
      | .error _ => s
  | .mkSet name d jt qids =>
      match createSet s name d jt qids with
      | .ok p => p.2
      | .error _ => s
  | .rate qid rating fb =>
      match createRating s qid rating fb with
      | .ok p => p.2
      | .error _ => s

/-- Modelled from the spec: the total difficulty accumulated by the missing
StatsAggregator. -/
def sumDifficulty (qs : List Question) : Nat :=
  qs.foldl (fun acc q => acc + q.difficulty) 0

/-- Modelled from the spec: the aggregate record returned by `stats()`. -/
structure StatsRecord where
  total_questions : Nat
  questions_by_type : QuestionType → Nat
  questions_by_job_title : String → Nat
  average_difficulty : ℚ
  flagged_questions : Nat
  total_question_sets : Nat

/-- Modelled from the spec: the missing StatsAggregator — a read-only
aggregate view over the store, with `average_difficulty` equal to 0 when no
questions exist. -/
def statsOf (s : Store) : StatsRecord :=
  { total_questions := s.questions.length
    questions_by_type := fun t =>
      (s.questions.filter (fun q => q.question_type == t)).length
    questions_by_job_title := fun jt =>
      (s.questions.filter (fun q => q.job_title == jt)).length
    average_difficulty :=
      if s.questions.length = 0 then 0
      else (sumDifficulty s.questions : ℚ) / (s.questions.length : ℚ)
    flagged_questions := (s.questions.filter (fun q => q.is_flagged)).length
    total_question_sets := s.sets.length }

/-! ## Helper lemmas -/

theorem fallbackGenerate_length (jt : String) (qt : ReqQuestionType) (n : Nat) :
    (fallbackGenerate jt qt n).length = n := by
  simp [fallbackGenerate]

theorem fallbackGenerate_difficulty {jt : String} {qt : ReqQuestionType} {n : Nat}
    {c : Candidate} (h : c ∈ fallbackGenerate jt qt n) : c.difficulty = 3 := by
  simp only [fallbackGenerate, List.mem_map, List.mem_range] at h
  obtain ⟨i, -, rfl⟩ := h
  rfl

theorem validCandidate_difficulty {rc : RawCandidate} {c : Candidate}
    (h : validCandidate rc = some c) : 1 ≤ c.difficulty ∧ c.difficulty ≤ 5 := by
  unfold validCandidate at h
  split at h
  · split at h
    · exact absurd h (by simp)
    · split at h
      · exact absurd h (by simp)
      · split at h
        · rename_i d _ _ _ hd
          obtain rfl : _ = c := Option.some.inj h
          simp only
          omega
        · exact absurd h (by simp)
  · exact absurd h (by simp)

theorem parseResponse_difficulty {raws : List RawCandidate} {cs : List Candidate}
    (h : parseResponse raws = .ok cs) {c : Candidate} (hc : c ∈ cs) :
    1 ≤ c.difficulty ∧ c.difficulty ≤ 5 := by
  unfold parseResponse at h
  split at h
  · exact absurd h (by simp)
  · rename_i c₀ cs₀ heq
    obtain rfl : c₀ :: cs₀ = cs := by simpa using h
    rw [← heq] at hc
    obtain ⟨rc, -, hrc⟩ := List.mem_filterMap.mp hc
    exact validCandidate_difficulty hrc

theorem assembleBatch_length (jt : String) (qt : ReqQuestionType) (count : Nat)
    (up : Except UpstreamFailure (List RawCandidate)) :
    (assembleBatch jt qt count up).length = count := by
  unfold assembleBatch
  split
  · exact fallbackGenerate_length ..
  · split
    · exact fallbackGenerate_length ..
    · split
      · rename_i parsed _ hlt
        simp [fallbackGenerate_length]
        omega
      · rename_i parsed _ hge
        simp at hge
        simp [List.length_take]
        omega

theorem assembleBatch_difficulty {jt : String} {qt : ReqQuestionType} {count : Nat}
    {up : Except UpstreamFailure (List RawCandidate)} {c : Candidate}
    (h : c ∈ assembleBatch jt qt count up) :
    1 ≤ c.difficulty ∧ c.difficulty ≤ 5 := by
  unfold assembleBatch at h
  split at h
  · have := fallbackGenerate_difficulty h
    omega
  · split at h
    · have := fallbackGenerate_difficulty h
      omega
    · rename_i parsed hparse
      split at h
      · rcases List.mem_append.mp h with h' | h'
        · exact parseResponse_difficulty hparse h'
        · have := fallbackGenerate_difficulty h'
          omega
      · exact parseResponse_difficulty hparse (List.mem_of_mem_take h)

theorem persistList_length (jt : String) (nextId : Nat) (cs : List Candidate) :
    (persistList jt nextId cs).length = cs.length := by
  induction cs generalizing nextId with
  | nil => rfl
  | cons c cs ih => simp [persistList, ih]

theorem persistList_mem {jt : String} {nextId : Nat} {cs : List Candidate}
    {q : Question} (h : q ∈ persistList jt nextId cs) :
    ∃ c ∈ cs, q.difficulty = c.difficulty ∧ q.question_type = c.question_type := by
  induction cs generalizing nextId with
  | nil => simp [persistList] at h
  | cons c cs ih =>
      simp only [persistList, List.mem_cons] at h
      rcases h with rfl | h
      · exact ⟨c, List.mem_cons_self .., rfl, rfl⟩
      · obtain ⟨c', hc', hq⟩ := ih h
        exact ⟨c', List.mem_cons_of_mem _ hc', hq⟩

theorem sumDifficulty_eq_sum (qs : List Question) :
    sumDifficulty qs = (qs.map (fun q => q.difficulty)).sum := by
  have key : ∀ (l : List Question) (n : Nat),
      l.foldl (fun acc q => acc + q.difficulty) n = n + (l.map (fun q => q.difficulty)).sum := by
    intro l
    induction l with
    | nil => simp
    | cons q l ih => intro n; simp [ih]; omega
  simpa using key qs 0

theorem ratings_not_mutated (s : Store) (op : Op) :
    ∀ r' ∈ (applyOp s op).ratings, r' ∈ s.ratings ∨ r'.id = s.nextRatingId := by
  intro r' h
  cases op with
  | gen r up =>
      left
      simp only [applyOp] at h
      split at h
      · rename_i p hgen
        unfold generate at hgen
        split at hgen
        · exact absurd hgen (by simp)
        · split at hgen
          · obtain rfl := Except.ok.inj hgen
            simpa [persistBatch] using h
          · exact absurd hgen (by simp)
      · exact h
  | del id =>
      left
      simp only [applyOp] at h
      split at h
      · rename_i s' hdel
        unfold deleteQuestion at hdel
        split at hdel
        · exact absurd hdel (by simp)
        · obtain rfl := Except.ok.inj hdel
          simp only at h
          exact (List.mem_filter.mp h).1
      · exact h
  | updateQ id u =>
      left
      simp only [applyOp] at h
      split at h
      · rename_i s' hupd
        unfold updateQuestion at hupd
        split at hupd
        · exact absurd hupd (by simp)
        · obtain rfl := Except.ok.inj hupd
          exact h
      · exact h
  | mkSet name d jt qids =>
      left
      simp only [applyOp] at h
      split at h
      · rename_i p hmk
        unfold createSet at hmk
        split at hmk
        · split at hmk
          · obtain rfl := Except.ok.inj hmk
            exact h
          · exact absurd hmk (by simp)
        · exact absurd hmk (by simp)
      · exact h
  | rate qid rating fb =>
      simp only [applyOp] at h
      split at h
      · rename_i p hrate
        unfold createRating at hrate
        split at hrate
        · split at hrate
          · exact absurd hrate (by simp)
          · obtain rfl := Except.ok.inj hrate
            simp only at h
            rcases List.mem_append.mp h with h' | h'
            · exact Or.inl h'
            · right
              obtain rfl : r' = _ := by simpa using h'
              rfl
        · exact absurd hrate (by simp)
      · exact Or.inl h

theorem jsStringOr_ne_empty {v : Option String} {fb : String} (h : fb ≠ "") :
    jsStringOr v fb ≠ "" := by
  unfold jsStringOr
  cases v with
  | none => exact h
  | some s => by_cases hs : s = "" <;> simp [hs, h]

/-! ## Sample data for witnesses -/

/-- A concrete technical question used by witnesses. -/
def sampleTechnical : Question :=
  { id := 1
    job_title := "Data Scientist"
    question_text := "Explain the bias-variance tradeoff."
    question_type := .technical
    difficulty := 2
    is_flagged := false
    tags := none }

/-- A concrete behavioral question used by witnesses. -/
def sampleBehavioral : Question :=
  { id := 2
    job_title := "Data Scientist"
    question_text := "Tell me about a project that failed."
    question_type := .behavioral
    difficulty := 4
    is_flagged := true
    tags := some "teamwork" }

/-- A concrete question set referencing both sample questions. -/
def sampleSet : QuestionSet :=
  { id := 1
    name := "Core Set"
    description := none
    job_title := "Data Scientist"
    question_ids := [1, 2] }

/-- A concrete rating for question 1. -/
def sampleRating : Rating :=
  { id := 1, question_id := 1, rating := 4, feedback := none }

/-- A concrete store used by witnesses. -/
def baseStore : Store :=
  { questions := [sampleTechnical, sampleBehavioral]
    sets := [sampleSet]
    ratings := [sampleRating]
    nextQuestionId := 3
    nextSetId := 2
    nextRatingId := 2
    persistOk := true }

/-- A concrete valid generation request used by witnesses. -/
def reqGen : GenRequest :=
  { job_title := "Backend Engineer", count := 4, question_type := .technical }

/-! ## Claims -/

/-- C8: validation of a generation request fails with a `ValidationError`
naming the offending field if and only if `job_title` is blank or has length
outside [2,100], or `count` is outside [1,100] (`count` is an integer and
`question_type` is a member of the request enum by type); the validator is a
pure function of the request and never touches the store. -/
theorem validateGenRequest_contract (r : GenRequest) :
    (validateGenRequest r = .ok () ↔
        (trimStr r.job_title ≠ "" ∧ 2 ≤ r.job_title.length ∧ r.job_title.length ≤ 100 ∧
          1 ≤ r.count ∧ r.count ≤ 100))
    ∧ (trimStr r.job_title = "" ∨ r.job_title.length < 2 ∨ 100 < r.job_title.length →
        validateGenRequest r = .error (.validationError "job_title"))
    ∧ (trimStr r.job_title ≠ "" ∧ 2 ≤ r.job_title.length ∧ r.job_title.length ≤ 100 →
        r.count < 1 ∨ 100 < r.count →
        validateGenRequest r = .error (.validationError "count")) := by
  unfold validateGenRequest
  split_ifs with h1 h2 h3
  · exact ⟨by simp [h1], fun _ => rfl, fun hc _ => absurd h1 hc.1⟩
  · refine ⟨iff_of_false (by simp) ?_, fun _ => rfl, fun hc _ => ?_⟩
    · rintro ⟨-, hl2, hl3, -, -⟩
      omega
    · obtain ⟨-, hl2, hl3⟩ := hc
      omega
  · rw [not_or] at h2
    refine ⟨iff_of_false (by simp) ?_, ?_, fun _ _ => rfl⟩
    · rintro ⟨-, -, -, hc1, hc2⟩
      omega
    · rintro (hc | hc | hc)
      · exact absurd hc h1
      · omega
      · omega
  · rw [not_or] at h2 h3
    refine ⟨iff_of_true rfl ⟨h1, by omega, by omega, by omega, by omega⟩, ?_, fun _ hc => ?_⟩
    · rintro (hc | hc | hc)
      · exact absurd hc h1
      · omega
      · omega
    · rcases hc with hc | hc <;> omega

/-- C8 witness: the contract applied to a concrete accepted request and a
concrete blank-job-title request. -/
theorem validateGenRequest_contract_witness :
    validateGenRequest { job_title := "Data Scientist", count := 5, question_type := .mixed } = .ok ()
    ∧ validateGenRequest { job_title := "   ", count := 5, question_type := .technical } =
        .error (.validationError "job_title") :=
  ⟨(validateGenRequest_contract _).1.mpr (by refine ⟨by decide, by decide, by decide, by decide, by decide⟩),
   (validateGenRequest_contract _).2.1 (Or.inl (by decide))⟩

/-- C7: `stats()` reports an `average_difficulty` equal to the arithmetic
mean of the stored difficulty values, and 0 (without failing — `statsOf` is
a total function) when no questions exist. -/
theorem statsOf_average_contract (s : Store) :
    (s.questions = [] → (statsOf s).average_difficulty = 0)
    ∧ (s.questions ≠ [] →
        (statsOf s).average_difficulty =
          (s.questions.map (fun q => (q.difficulty : ℚ))).sum / (s.questions.length : ℚ)) := by
  constructor
  · intro h
    simp [statsOf, h]
  · intro h
    have hlen : s.questions.length ≠ 0 := by simpa using h
    simp only [statsOf, if_neg hlen]
    congr 1
    rw [sumDifficulty_eq_sum, Nat.cast_list_sum, List.map_map]
    rfl

/-- C7 witness: the mean over the two sample questions is (2 + 4) / 2. -/
theorem statsOf_average_contract_witness :
    baseStore.questions ≠ [] ∧
    (statsOf baseStore).average_difficulty =
      (baseStore.questions.map (fun q => (q.difficulty : ℚ))).sum /
        (baseStore.questions.length : ℚ) :=
  ⟨by decide, (statsOf_average_contract baseStore).2 (by decide)⟩

/-- C6: recording a rating never changes any Question row, hence the
`average_difficulty` reported by a subsequent `stats()` call is unchanged. -/
theorem createRating_frame (s : Store) (qid : Nat) (rating : ℚ)
    (fb : Option String) (rt : Rating) (s' : Store)
    (h : createRating s qid rating fb = .ok (rt, s')) :
    s'.questions = s.questions ∧
    (statsOf s').average_difficulty = (statsOf s).average_difficulty := by
  unfold createRating at h
  split at h
  · split at h
    · exact absurd h (by simp)
    · obtain ⟨-, rfl⟩ := Prod.mk.inj (Except.ok.inj h)
      exact ⟨rfl, rfl⟩
  · exact absurd h (by simp)

/-- The result of the concrete rating call used by the C6 witness. -/
def rateOut : Rating × Store :=
  match createRating baseStore 1 (4 : ℚ) (some "clear") with
  | .ok p => p
  | .error _ => (sampleRating, baseStore)

/-- C6 witness: rating question 1 with 4 leaves the questions and the
average difficulty unchanged. -/
theorem createRating_frame_witness :
    createRating baseStore 1 (4 : ℚ) (some "clear") = .ok (rateOut.1, rateOut.2)
    ∧ rateOut.2.questions = baseStore.questions
    ∧ (statsOf rateOut.2).average_difficulty = (statsOf baseStore).average_difficulty := by
  have h : createRating baseStore 1 (4 : ℚ) (some "clear") = .ok (rateOut.1, rateOut.2) := rfl
  obtain ⟨h1, h2⟩ := createRating_frame baseStore 1 (4 : ℚ) (some "clear") rateOut.1 rateOut.2 h
  exact ⟨h, h1, h2⟩

/-- C5: a rate call succeeds exactly when the referenced question exists and
the decimal rating lies in [1.0, 5.0]; a missing question gives
`NotFoundError`, an out-of-range rating on an existing question gives
`ValidationError`; the persisted row carries the requested value and no later
operation ever modifies an existing rating row (it can only survive
unchanged, be cascade-deleted, or be joined by a fresh row). -/
theorem createRating_contract (s : Store) (qid : Nat) (rating : ℚ) (fb : Option String) :
    ((∃ rt s', createRating s qid rating fb = .ok (rt, s')) ↔
        (questionExists s qid = true ∧ 1 ≤ rating ∧ rating ≤ 5))
    ∧ (questionExists s qid = false → createRating s qid rating fb = .error .notFoundError)
    ∧ (questionExists s qid = true → (rating < 1 ∨ 5 < rating) →
        createRating s qid rating fb = .error (.validationError "rating"))
    ∧ (∀ rt s', createRating s qid rating fb = .ok (rt, s') →
        rt.rating = rating ∧ rt ∈ s'.ratings ∧
        ∀ op r', r' ∈ (applyOp s' op).ratings → r' ∈ s'.ratings ∨ r'.id = s'.nextRatingId) := by
  unfold createRating
  split_ifs with h1 h2
  · refine ⟨iff_of_false (by simp) ?_, fun hq => by simp [hq] at h1, fun _ _ => rfl, ?_⟩
    · rintro ⟨-, hr1, hr2⟩
      rcases h2 with h | h
      · exact absurd hr1 (not_le.mpr h)
      · exact absurd hr2 (not_le.mpr h)
    · intro rt s' h
      exact absurd h (by simp)
  · rw [not_or] at h2
    refine ⟨iff_of_true ⟨_, _, rfl⟩ ⟨h1, not_lt.mp h2.1, not_lt.mp h2.2⟩,
      fun hq => by simp [hq] at h1, fun _ hr => absurd hr (by rw [not_or]; exact h2), ?_⟩
    intro rt s' h
    obtain ⟨rfl, rfl⟩ := Prod.mk.inj (Except.ok.inj h)
    refine ⟨rfl, List.mem_append_right _ (List.mem_singleton_self _), ?_⟩
    intro op r' hr'
    exact ratings_not_mutated _ op r' hr'
  · refine ⟨iff_of_false (by simp) ?_, fun _ => rfl, fun hq _ => absurd hq h1, ?_⟩
    · rintro ⟨hq, -, -⟩
      exact h1 hq
    · intro rt s' h
      exact absurd h (by simp)

/-- The result of the concrete rating call used by the C5 witness. -/
def rateOut5 : Rating × Store :=
  match createRating baseStore 2 (4 : ℚ) none with
  | .ok p => p
  | .error _ => (sampleRating, baseStore)

/-- C5 witness: rating question 2 with 4 succeeds and persists the row;
rating a missing question 99 fails with `NotFoundError`; rating question 2
with 6 fails with `ValidationError`. -/
theorem createRating_contract_witness :
    questionExists baseStore 2 = true
    ∧ createRating baseStore 2 (4 : ℚ) none = .ok (rateOut5.1, rateOut5.2)
    ∧ rateOut5.1.rating = (4 : ℚ)
    ∧ rateOut5.1 ∈ rateOut5.2.ratings
    ∧ questionExists baseStore 99 = false
    ∧ createRating baseStore 99 (4 : ℚ) none = .error .notFoundError
    ∧ createRating baseStore 2 (6 : ℚ) none = .error (.validationError "rating") := by
  have h : createRating baseStore 2 (4 : ℚ) none = .ok (rateOut5.1, rateOut5.2) := rfl
  obtain ⟨hr, hmem, -⟩ := (createRating_contract baseStore 2 (4 : ℚ) none).2.2.2 rateOut5.1 rateOut5.2 h
  refine ⟨by decide, h, hr, hmem, by decide, ?_, ?_⟩
  · exact (createRating_contract baseStore 99 (4 : ℚ) none).2.1 (by decide)
  · exact (createRating_contract baseStore 2 (6 : ℚ) none).2.2.1 (by decide) (by decide)

/-- C4: question-set creation is all-or-nothing — duplicate question ids in
the request fail with `ValidationError`, a missing question id (in a
duplicate-free request) fails with `NotFoundError`, and in either case no
state is produced (`createSet` returns only the error); a success implies
every id was validated and the set was persisted with exactly the requested
ids. -/
theorem createSet_contract (s : Store) (name : String) (d : Option String)
    (jt : String) (qids : List Nat) :
    (qids.Nodup → (∃ qid ∈ qids, questionExists s qid = false) →
        createSet s name d jt qids = .error .notFoundError)
    ∧ (¬ qids.Nodup → createSet s name d jt qids = .error (.validationError "question_ids"))
    ∧ (∀ st s', createSet s name d jt qids = .ok (st, s') →
        qids.Nodup ∧ (∀ qid ∈ qids, questionExists s qid = true) ∧
        st.question_ids = qids ∧ st ∈ s'.sets) := by
  unfold createSet
  split_ifs with h1 h2
  · refine ⟨?_, fun hnd => absurd h1 hnd, ?_⟩
    · rintro - ⟨qid, hmem, hfalse⟩
      have := List.all_eq_true.mp h2 qid hmem
      simp [hfalse] at this
    · intro st s' h
      obtain ⟨rfl, rfl⟩ := Prod.mk.inj (Except.ok.inj h)
      refine ⟨h1, ?_, rfl, List.mem_append_right _ (List.mem_singleton_self _)⟩
      intro qid hmem
      simpa using List.all_eq_true.mp h2 qid hmem
  · refine ⟨fun _ _ => rfl, fun hnd => absurd h1 hnd, ?_⟩
    intro st s' h
    exact absurd h (by simp)
  · refine ⟨fun hnd _ => absurd hnd h1, fun _ => rfl, ?_⟩
    intro st s' h
    exact absurd h (by simp)

/-- C4 witness: creating a set over [1, 2, 999] where 999 is absent fails
with `NotFoundError`; creating a set over the duplicate list [1, 1] fails
with `ValidationError`. -/
theorem createSet_contract_witness :
    ([1, 2, 999] : List Nat).Nodup
    ∧ questionExists baseStore 999 = false
    ∧ createSet baseStore "Core Set" none "Data Scientist" [1, 2, 999] = .error .notFoundError
    ∧ ¬ ([1, 1] : List Nat).Nodup
    ∧ createSet baseStore "Dup Set" none "Data Scientist" [1, 1] =
        .error (.validationError "question_ids") := by
  refine ⟨by decide, by decide, ?_, by decide, ?_⟩
  · exact (createSet_contract baseStore "Core Set" none "Data Scientist" [1, 2, 999]).1
      (by decide) ⟨999, by decide, by decide⟩
  · exact (createSet_contract baseStore "Dup Set" none "Data Scientist" [1, 1]).2.1 (by decide)

/-- C3: deleting a stored question removes it (a subsequent get fails with
`NotFoundError`), removes every rating row referencing it and every set
membership referencing it, while keeping every other question; deleting an
absent id fails with `NotFoundError`. -/
theorem deleteQuestion_cascade (s : Store) (id : Nat) :
    (∀ s', deleteQuestion s id = .ok s' →
        getQuestion s' id = .error .notFoundError
        ∧ (∀ rt ∈ s'.ratings, rt.question_id ≠ id)
        ∧ (∀ st ∈ s'.sets, id ∉ st.question_ids)
        ∧ (∀ q ∈ s.questions, q.id ≠ id → q ∈ s'.questions))
    ∧ ((∀ q ∈ s.questions, q.id ≠ id) → deleteQuestion s id = .error .notFoundError) := by
  constructor
  · intro s' h
    unfold deleteQuestion at h
    split at h
    · exact absurd h (by simp)
    · obtain rfl := Except.ok.inj h
      refine ⟨?_, ?_, ?_, ?_⟩
      · have hnone : (s.questions.filter (fun q => ! (q.id == id))).find?
            (fun q => q.id == id) = none := by
          rw [List.find?_eq_none]
          intro x hx
          have := (List.mem_filter.mp hx).2
          simp_all
        simp [getQuestion, hnone]
      · intro rt hrt
        have := (List.mem_filter.mp hrt).2
        simpa using this
      · intro st hst
        obtain ⟨st₀, -, rfl⟩ := List.mem_map.mp hst
        intro hmem
        have := (List.mem_filter.mp hmem).2
        simp at this
      · intro q hq hne
        exact List.mem_filter.mpr ⟨hq, by simpa using hne⟩
  · intro hall
    unfold deleteQuestion
    have hnone : s.questions.find? (fun q => q.id == id) = none := by
      rw [List.find?_eq_none]
      intro x hx
      simpa using hall x hx
    rw [hnone]

/-- The store left by the concrete delete call used by the C3 witness. -/
def delOut : Store :=
  match deleteQuestion baseStore 1 with
  | .ok s' => s'
  | .error _ => baseStore

/-- C3 witness: deleting question 1 (which has a rating and belongs to the
sample set) cascades, and deleting the absent id 99 fails. -/
theorem deleteQuestion_cascade_witness :
    deleteQuestion baseStore 1 = .ok delOut
    ∧ getQuestion delOut 1 = .error .notFoundError
    ∧ (∀ rt ∈ delOut.ratings, rt.question_id ≠ 1)
    ∧ (∀ st ∈ delOut.sets, 1 ∉ st.question_ids)
    ∧ deleteQuestion baseStore 99 = .error .notFoundError := by
  have h : deleteQuestion baseStore 1 = .ok delOut := rfl
  obtain ⟨h1, h2, h3, -⟩ := (deleteQuestion_cascade baseStore 1).1 delOut h
  exact ⟨h, h1, h2, h3, (deleteQuestion_cascade baseStore 99).2 (by decide)⟩

/-- C1: a successful `generate` call for a request with `count = n`
(1 ≤ n ≤ 100) returns exactly n questions, each with difficulty in [1,5],
each of type technical or behavioral (never mixed, which the stored
`QuestionType` cannot even express), and each persisted in the resulting
store. -/
theorem generate_batch_contract (s : Store) (r : GenRequest)
    (up : Except UpstreamFailure (List RawCandidate)) (qs : List Question)
    (s' : Store) (n : Nat) (hn : r.count = (n : Int))
    (hlow : 1 ≤ n) (hhigh : n ≤ 100)
    (hok : generate s r up = .ok (qs, s')) :
    qs.length = n ∧ ∀ q ∈ qs,
      (1 ≤ q.difficulty ∧ q.difficulty ≤ 5)
      ∧ (q.question_type = .technical ∨ q.question_type = .behavioral)
      ∧ q ∈ s'.questions := by
  unfold generate at hok
  split at hok
  · exact absurd hok (by simp)
  · split at hok
    · simp only [persistBatch, Except.ok.injEq, Prod.mk.injEq] at hok
      obtain ⟨rfl, rfl⟩ := hok
      constructor
      · rw [persistList_length, assembleBatch_length, hn]
        exact Int.toNat_natCast n
      · intro q hq
        obtain ⟨c, hc, hd, ht⟩ := persistList_mem hq
        obtain ⟨hd1, hd2⟩ := assembleBatch_difficulty hc
        refine ⟨⟨by omega, by omega⟩, ?_, ?_⟩
        · cases hqt : q.question_type
          · exact Or.inl rfl
          · exact Or.inr rfl
        · exact List.mem_append_right _ hq
    · exact absurd hok (by simp)

/-- The output of the concrete `generate` call used by the C1 witness. -/
def genOut : List Question × Store :=
  match generate baseStore reqGen (.error .unreachable) with
  | .ok p => p
  | .error _ => ([], baseStore)

/-- C1 witness: generating 4 technical questions for "Backend Engineer"
against an unreachable provider yields exactly 4 valid persisted
questions. -/
theorem generate_batch_contract_witness :
    reqGen.count = (4 : Int) ∧ 1 ≤ 4 ∧ 4 ≤ 100
    ∧ generate baseStore reqGen (.error .unreachable) = .ok (genOut.1, genOut.2)
    ∧ genOut.1.length = 4
    ∧ ∀ q ∈ genOut.1,
        (1 ≤ q.difficulty ∧ q.difficulty ≤ 5)
        ∧ (q.question_type = .technical ∨ q.question_type = .behavioral)
        ∧ q ∈ genOut.2.questions := by
  have hok : generate baseStore reqGen (.error .unreachable) = .ok (genOut.1, genOut.2) := rfl
  obtain ⟨h1, h2⟩ := generate_batch_contract baseStore reqGen (.error .unreachable)
    genOut.1 genOut.2 4 rfl (by omega) (by omega) hok
  exact ⟨rfl, by omega, by omega, hok, h1, h2⟩

/-- C2: for a valid request in a healthy store, `generate` succeeds with
exactly `count` questions for every upstream behavior — including every
upstream failure, which the fallback path absorbs — and whenever `generate`
fails, the error is a `ValidationError` or a `PersistenceError`, never an
upstream or parse failure. -/
theorem generate_error_policy (s : Store) (r : GenRequest)
    (up : Except UpstreamFailure (List RawCandidate)) :
    (validateGenRequest r = .ok () → s.persistOk = true →
        generate s r up =
          .ok (persistBatch s r.job_title
            (assembleBatch r.job_title r.question_type r.count.toNat up))
        ∧ (persistBatch s r.job_title
            (assembleBatch r.job_title r.question_type r.count.toNat up)).1.length
            = r.count.toNat)
    ∧ (∀ e, generate s r up = .error e → allowedGenerateError e = true) := by
  constructor
  · intro hv hp
    constructor
    · unfold generate
      rw [hv]
      simp [hp]
    · simp [persistBatch, persistList_length, assembleBatch_length]
  · intro e he
    unfold generate at he
    split at he
    · rename_i e' hv
      obtain rfl := Except.error.inj he
      unfold validateGenRequest at hv
      split_ifs at hv
      all_goals
        obtain rfl := (Except.error.inj hv).symm
        rfl
    · split at he
      · exact absurd he (by simp)
      · obtain rfl := (Except.error.inj he).symm
        rfl

/-- C2 witness: the concrete valid request against an unreachable provider
succeeds with exactly 4 persisted questions. -/
theorem generate_error_policy_witness :
    validateGenRequest reqGen = .ok () ∧ baseStore.persistOk = true
    ∧ generate baseStore reqGen (.error .unreachable) =
        .ok (persistBatch baseStore reqGen.job_title
          (assembleBatch reqGen.job_title reqGen.question_type reqGen.count.toNat
            (.error .unreachable)))
    ∧ (persistBatch baseStore reqGen.job_title
        (assembleBatch reqGen.job_title reqGen.question_type reqGen.count.toNat
          (.error .unreachable))).1.length = reqGen.count.toNat := by
  have hv : validateGenRequest reqGen = .ok () := rfl
  have hp : baseStore.persistOk = true := rfl
  obtain ⟨h1, h2⟩ := (generate_error_policy baseStore reqGen (.error .unreachable)).1 hv hp
  exact ⟨hv, hp, h1, h2⟩

/-- C9 counterexample: the classification is not determined solely by the
response status — a non-axios input carries no response (and hence no
status), yet it is classified UNKNOWN while an axios error without a
response is classified NETWORK, and the claim maps an absent status to
NETWORK. -/
theorem parseAxiosError_counterexample :
    (parseAxiosError ErrInput.nonAxios).type = ErrorType.unknown
    ∧ (parseAxiosError (ErrInput.axios none "boom")).type = ErrorType.network
    ∧ (parseAxiosError ErrInput.nonAxios).type ≠ ErrorType.network :=
  ⟨rfl, rfl, by decide⟩

/-- C9 (amended): `parseAxiosError` is total and always returns a non-empty
message; for axios errors the type is determined solely by the response
status (absent status to NETWORK, 400 to VALIDATION, 401 to AUTH, 404 to
NOTFOUND, >= 500 to SERVER, anything else to UNKNOWN), while any non-axios
input is classified UNKNOWN. -/
theorem parseAxiosError_amended (e : ErrInput) :
    (parseAxiosError e).message ≠ ""
    ∧ (∀ resp msg, e = .axios resp msg →
        (parseAxiosError e).type = statusToErrorType (resp.map (fun r => r.status)))
    ∧ (e = .nonAxios → (parseAxiosError e).type = ErrorType.unknown) := by
  cases e with
  | nonAxios =>
      refine ⟨by decide, ?_, fun _ => rfl⟩
      intro resp msg h
      exact absurd h (by simp)
  | axios response msg =>
      refine ⟨?_, ?_, fun h => absurd h (by simp)⟩
      · cases response with
        | none =>
            change "Network connection failed. Please check your internet and try again." ≠ ""
            decide
        | some resp =>
            simp only [parseAxiosError]
            split_ifs
            · exact jsStringOr_ne_empty (jsStringOr_ne_empty (by decide))
            · decide
            · decide
            · change "Server error. Please try again later." ≠ ""
              decide
            · exact jsStringOr_ne_empty (by decide)
      · intro resp2 msg2 h
        cases h
        cases response with
        | none => rfl
        | some r =>
            simp only [parseAxiosError, Option.map_some', statusToErrorType]
            split_ifs <;> rfl

/-- C9 witness: the amended statement applied to a concrete axios error with
a 404 response. -/
theorem parseAxiosError_amended_witness :
    (parseAxiosError (.axios (some { status := 404, data := none }) "gone")).message ≠ ""
    ∧ (parseAxiosError (.axios (some { status := 404, data := none }) "gone")).type =
        statusToErrorType (some 404) := by
  obtain ⟨h1, h2, -⟩ :=
    parseAxiosError_amended (.axios (some { status := 404, data := none }) "gone")
  exact ⟨h1, h2 (some { status := 404, data := none }) "gone" rfl⟩

/-- C10: `getQuestionCount` is a total function into the natural numbers:
a string starting with a bracket that parses as a JSON array yields the
array length, a bracket-string that fails to parse yields 0 (the catch
branch), and any other string yields the number of comma-separated entries
with non-empty trimmed text. -/
theorem getQuestionCount_contract (s : String) :
    (∀ arr, startsWithBracket s = true → parseJsonIntArray s = some arr →
        getQuestionCount s = arr.length)
    ∧ (startsWithBracket s = true → parseJsonIntArray s = none →
        getQuestionCount s = 0)
    ∧ (startsWithBracket s = false →
        getQuestionCount s = (splitComma s).countP (fun e => decide (trimStr e ≠ ""))) := by
  refine ⟨?_, ?_, ?_⟩
  · intro arr hb hp
    simp [getQuestionCount, hb, hp]
  · intro hb hp
    simp [getQuestionCount, hb, hp]
  · intro hb
    rw [List.countP_eq_length_filter]
    simp [getQuestionCount, hb]

/-- C10 witness: the contract applied to a well-formed JSON array, a
malformed bracket string, and a comma-separated string with one blank
entry. -/
theorem getQuestionCount_contract_witness :
    startsWithBracket "[1, 2, 3]" = true
    ∧ parseJsonIntArray "[1, 2, 3]" = some [1, 2, 3]
    ∧ getQuestionCount "[1, 2, 3]" = 3
    ∧ startsWithBracket "[1, 2" = true
    ∧ parseJsonIntArray "[1, 2" = none
    ∧ getQuestionCount "[1, 2" = 0
    ∧ startsWithBracket "4, 5 , ,6" = false
    ∧ getQuestionCount "4, 5 , ,6" =
        (splitComma "4, 5 , ,6").countP (fun e => decide (trimStr e ≠ "")) := by
  refine ⟨rfl, rfl, ?_, rfl, rfl, ?_, rfl, ?_⟩
  · exact (getQuestionCount_contract "[1, 2, 3]").1 [1, 2, 3] rfl rfl
  · exact (getQuestionCount_contract "[1, 2").2.1 rfl rfl
  · exact (getQuestionCount_contract "4, 5 , ,6").2.2 rfl

end InterviewHelper
